import Mathlib

/-!
Verification development for the Jobly data-access layer.

The Company repository is embedded from the JavaScript source
(`models/company.js`).  The database is modelled as explicit lists of
rows; each repository method becomes a pure function returning
`Except JoblyError α`, mirroring the `throw`/`return` structure of the
code.  The relational store's evaluation of the generated WHERE clauses
(comparison on `num_employees`, `ILIKE` as case-insensitive substring
matching, `ORDER BY` as a sort) is modelled directly on the clause
structures the code builds.

Parts of the repository whose implementation files are not present
(the partial-update SQL builder, the User and Job models) are modelled
from the spec, and each such definition is marked `Modelled from the
spec:` in its doc comment.
-/

/-- The typed errors of the express layer (`BadRequestError`,
`NotFoundError`, `UnauthorizedError`), each carrying its message. -/
inductive JoblyError where
  | badRequest (msg : String)
  | notFound (msg : String)
  | unauthorized (msg : String)
deriving DecidableEq, Repr

/-- A SQL bind value as passed in the positional-values array of
`db.query(sql, values)`. -/
inductive SqlValue where
  | int (i : Int)
  | str (s : String)
  | null
deriving DecidableEq, Repr

/-- A row of the `companies` table, in the API-facing shape the queries
return (`num_employees AS "numEmployees"`, `logo_url AS "logoUrl"`). -/
structure CompanyRow where
  handle : String
  name : String
  description : String
  numEmployees : Option Int
  logoUrl : Option String
deriving DecidableEq, Repr

/-- The `searchFilters` argument of `Company.findAll`.  An absent key of
the JavaScript object is `none`; `name` being present but empty models a
falsy (empty-string) `name`. -/
structure CompanyFilters where
  minEmployees : Option Int := none
  maxEmployees : Option Int := none
  name : Option String := none
deriving DecidableEq, Repr

/-- One entry of the `whereClauses` array built by `Company.findAll`:
the clause kind, the 1-based placeholder index used in its SQL text
(`$idx`), and the bound value. -/
inductive WhereClause where
  | geNumEmployees (idx : Nat) (v : Int)
  | leNumEmployees (idx : Nat) (v : Int)
  | nameILike (idx : Nat) (name : String)
deriving DecidableEq, Repr

/-- The SQL text of a clause, exactly as the code pushes it. -/
def WhereClause.render : WhereClause → String
  | .geNumEmployees idx _ => "num_employees >= $" ++ toString idx
  | .leNumEmployees idx _ => "num_employees <= $" ++ toString idx
  | .nameILike idx _ => "name ILIKE $" ++ toString idx

/-- `needle` occurs as a contiguous run inside `haystack`. -/
def charsContain : List Char → List Char → Bool
  | needle, [] => needle.isEmpty
  | needle, c :: t => needle.isPrefixOf (c :: t) || charsContain needle t

/-- Case-insensitive substring test: does `sub` occur inside `s`,
ignoring case?  Models the store evaluating `name ILIKE '%sub%'`. -/
def containsCI (s sub : String) : Bool :=
  charsContain sub.toLower.toList s.toLower.toList

/-- The store evaluating one WHERE clause against a row.  A SQL `NULL`
`num_employees` satisfies neither comparison. -/
def WhereClause.eval : WhereClause → CompanyRow → Bool
  | .geNumEmployees _ v, r =>
      match r.numEmployees with
      | some n => decide (v ≤ n)
      | none => false
  | .leNumEmployees _ v, r =>
      match r.numEmployees with
      | some n => decide (n ≤ v)
      | none => false
  | .nameILike _ nm, r => containsCI r.name nm

/-- State threaded through the clause-building steps of
`Company.findAll`: the `values` array and the `whereClauses` array. -/
abbrev BuildState := List SqlValue × List WhereClause

/-- `if (minEmployees !== undefined) { values.push(minEmployees);
whereClauses.push(...) }` — the bound on definedness, so `some 0` does
push a clause. -/
def addMinClause (mn : Option Int) (st : BuildState) : BuildState :=
  match mn with
  | some v => (st.1 ++ [.int v], st.2 ++ [.geNumEmployees (st.1.length + 1) v])
  | none => st

/-- `if (maxEmployees !== undefined) { ... }`. -/
def addMaxClause (mx : Option Int) (st : BuildState) : BuildState :=
  match mx with
  | some v => (st.1 ++ [.int v], st.2 ++ [.leNumEmployees (st.1.length + 1) v])
  | none => st

/-- `if (name) { values.push(`%name%`); whereClauses.push(...) }` —
gated on truthiness, so an empty string pushes nothing. -/
def addNameClause (nm : Option String) (st : BuildState) : BuildState :=
  match nm with
  | some s =>
      if s = "" then st
      else (st.1 ++ [.str ("%" ++ s ++ "%")], st.2 ++ [.nameILike (st.1.length + 1) s])
  | none => st

/-- The three pushes of `Company.findAll`, in source order. -/
def buildWhere (f : CompanyFilters) : BuildState :=
  addNameClause f.name (addMaxClause f.maxEmployees (addMinClause f.minEmployees ([], [])))

/-- The clause list `Company.findAll` builds for a filter object. -/
def clausesOf (f : CompanyFilters) : List WhereClause :=
  (buildWhere f).2

/-- The bind-values list `Company.findAll` passes to the store. -/
def valuesOf (f : CompanyFilters) : List SqlValue :=
  (buildWhere f).1

/-- The JavaScript guard `minEmployees > maxEmployees`: comparison with
`undefined` is false, so it only fires when both bounds are present. -/
def filtersInvalid (f : CompanyFilters) : Bool :=
  match f.minEmployees, f.maxEmployees with
  | some a, some b => decide (a > b)
  | _, _ => false

/-- `ORDER BY name`: ascending sort of the result rows by name. -/
def sortByName (rows : List CompanyRow) : List CompanyRow :=
  rows.mergeSort (fun a b => decide (a.name ≤ b.name))

/-- A row satisfies the conjunction (`AND`-join) of the clauses. -/
def satisfiesAll (cs : List WhereClause) (r : CompanyRow) : Bool :=
  cs.all (fun c => c.eval r)

/-- `Company.findAll(searchFilters)`: validates the employee bounds,
builds the WHERE clauses, and returns the rows of `companies` matching
all clauses, ordered by name. -/
def Company.findAll (companies : List CompanyRow) (f : CompanyFilters) :
    Except JoblyError (List CompanyRow) :=
  if filtersInvalid f then
    .error (.badRequest "Min employees cannot exceed max employees")
  else
    .ok (sortByName (companies.filter (satisfiesAll (clausesOf f))))

/-- `Company.create(data)`: the pre-insert duplicate lookup
(`SELECT handle FROM companies WHERE handle = $1`), then the insert.
Returns the stored shape and the new table contents. -/
def Company.create (companies : List CompanyRow) (c : CompanyRow) :
    Except JoblyError (CompanyRow × List CompanyRow) :=
  match companies.find? (fun r => r.handle == c.handle) with
  | some _ => .error (.badRequest ("Duplicate company: " ++ c.handle))
  | none => .ok (c, companies ++ [c])

/-- A row of the `jobs` table. -/
structure JobRow where
  id : Nat
  title : String
  salary : Option Int
  equity : Option Int
  companyHandle : String
deriving DecidableEq, Repr

/-- The nested job shape `Company.get` attaches: the jobs query selects
only `id, title, salary, equity`. -/
structure JobNested where
  id : Nat
  title : String
  salary : Option Int
  equity : Option Int
deriving DecidableEq, Repr

/-- Projection of a jobs-table row to the nested shape. -/
def JobRow.toNested (j : JobRow) : JobNested :=
  ⟨j.id, j.title, j.salary, j.equity⟩

/-- The shape `Company.get` returns: the company row with its jobs
attached as a nested list. -/
structure CompanyView where
  handle : String
  name : String
  description : String
  numEmployees : Option Int
  logoUrl : Option String
  jobs : List JobNested
deriving DecidableEq, Repr

/-- `ORDER BY id` on the nested jobs list. -/
def sortJobsById (js : List JobNested) : List JobNested :=
  js.mergeSort (fun a b => decide (a.id ≤ b.id))

/-- `Company.get(handle)`: one company by handle or NotFound, then its
jobs (`WHERE company_handle = $1 ORDER BY id`) attached. -/
def Company.get (companies : List CompanyRow) (jobs : List JobRow) (handle : String) :
    Except JoblyError CompanyView :=
  match companies.find? (fun r => r.handle == handle) with
  | none => .error (.notFound ("No company: " ++ handle))
  | some c =>
      .ok { handle := c.handle, name := c.name, description := c.description,
            numEmployees := c.numEmployees, logoUrl := c.logoUrl,
            jobs := sortJobsById
              ((jobs.filter (fun j => j.companyHandle == handle)).map JobRow.toNested) }

/-- Modelled from the spec: the partial-update SQL builder
(`sqlForPartialUpdate` of `helpers/sql`, whose implementation file is
not in the sources).  Input: the sparse field-to-value mapping in
insertion order, and the semantic-to-storage column-name mapping.
Output: the list of `"column"=$n` SET fragments (the code joins them
with `", "`), one per input field in insertion order and numbered from
1, together with the positionally-ordered bind values.  Fails with a
BadRequest "No data" on an empty mapping. -/
def sqlForPartialUpdate (data : List (String × SqlValue)) (jsToSql : String → Option String) :
    Except JoblyError (List String × List SqlValue) :=
  if data.isEmpty then
    .error (.badRequest "No data")
  else
    .ok (data.enum.map
          (fun p => "\"" ++ ((jsToSql p.2.1).getD p.2.1) ++ "\"=$" ++ toString (p.1 + 1)),
         data.map (fun fv => fv.2))

/-- The `jsToSql` mapping `Company.update` passes to the builder. -/
def companyJsToSql (field : String) : Option String :=
  if field = "numEmployees" then some "num_employees"
  else if field = "logoUrl" then some "logo_url"
  else none

/-- The store applying one `SET field = value` to a company row. -/
def CompanyRow.setField (r : CompanyRow) (field : String) (v : SqlValue) : CompanyRow :=
  if field = "name" then
    match v with | .str s => { r with name := s } | _ => r
  else if field = "description" then
    match v with | .str s => { r with description := s } | _ => r
  else if field = "numEmployees" then
    match v with
    | .int n => { r with numEmployees := some n }
    | .null => { r with numEmployees := none }
    | _ => r
  else if field = "logoUrl" then
    match v with
    | .str s => { r with logoUrl := some s }
    | .null => { r with logoUrl := none }
    | _ => r
  else r

/-- The query `Company.update` issues: the SET fragments from the
builder, and the bind list `[...values, handle]` with the handle bound
at placeholder `$(values.length + 1)`. -/
def Company.updateQuery (handle : String) (data : List (String × SqlValue)) :
    Except JoblyError (List String × List SqlValue) :=
  match sqlForPartialUpdate data companyJsToSql with
  | .error e => .error e
  | .ok (setCols, values) => .ok (setCols, values ++ [SqlValue.str handle])

/-- `Company.update(handle, data)`: builds the partial-update query,
updates the row matched by `WHERE handle = $n`, and returns the updated
row, or NotFound when no row was affected. -/
def Company.update (companies : List CompanyRow) (handle : String)
    (data : List (String × SqlValue)) : Except JoblyError CompanyRow :=
  match Company.updateQuery handle data with
  | .error e => .error e
  | .ok _ =>
      match companies.find? (fun r => r.handle == handle) with
      | none => .error (.notFound ("No company: " ++ handle))
      | some r => .ok (data.foldl (fun acc fv => acc.setField fv.1 fv.2) r)

/-- `Company.remove(handle)`: `DELETE ... RETURNING handle`; NotFound
when no row was affected, otherwise the remaining table contents. -/
def Company.remove (companies : List CompanyRow) (handle : String) :
    Except JoblyError (List CompanyRow) :=
  match companies.find? (fun r => r.handle == handle) with
  | none => .error (.notFound ("No company: " ++ handle))
  | some _ => .ok (companies.filter (fun r => !(r.handle == handle)))

/-- A row of the `users` table; the password is stored only as a hash. -/
structure UserRow where
  username : String
  firstName : String
  lastName : String
  email : String
  isAdmin : Bool
  passwordHash : String
deriving DecidableEq, Repr

/-- The API-facing user shape: the user sans password.  It has no
password field at all, so no password can be returned through it. -/
structure UserPublic where
  username : String
  firstName : String
  lastName : String
  email : String
  isAdmin : Bool
deriving DecidableEq, Repr

/-- Dropping the password hash from a stored user row. -/
def UserRow.toPublic (u : UserRow) : UserPublic :=
  ⟨u.username, u.firstName, u.lastName, u.email, u.isAdmin⟩

/-- Modelled from the spec: the salted slow hash (bcrypt) used by the
User model, abstracted to an injective tagging function; the tests only
observe that stored hashes start with `"$2b$"`. -/
def hashPassword (p : String) : String :=
  "$2b$" ++ p

/-- Modelled from the spec: the hash check of `User.authenticate`
(bcrypt compare of the supplied password against the stored hash). -/
def checkPassword (p hash : String) : Bool :=
  hashPassword p == hash

/-- Modelled from the spec: `User.authenticate(username, password)`
(the `user.js` implementation file is not in the sources; its tests
are).  Looks up the user by username; fails with the same generic
Unauthorized "Invalid username/password" both when the user is absent
and when the hash check fails; on success returns the user sans
password. -/
def User.authenticate (users : List UserRow) (username password : String) :
    Except JoblyError UserPublic :=
  match users.find? (fun u => u.username == username) with
  | none => .error (.unauthorized "Invalid username/password")
  | some u =>
      if checkPassword password u.passwordHash then .ok u.toPublic
      else .error (.unauthorized "Invalid username/password")

/-- The registration input: plaintext password, `isAdmin` optional and
defaulting to false. -/
structure RegisterData where
  username : String
  firstName : String
  lastName : String
  email : String
  password : String
  isAdmin : Option Bool := none
deriving DecidableEq, Repr

/-- Modelled from the spec: `User.register(data)`.  Pre-insert
duplicate lookup on the username producing BadRequest "Duplicate
username: ..."; otherwise hashes the password, defaults `isAdmin` to
false, inserts, and returns the user sans password. -/
def User.register (users : List UserRow) (d : RegisterData) :
    Except JoblyError (UserPublic × List UserRow) :=
  match users.find? (fun u => u.username == d.username) with
  | some _ => .error (.badRequest ("Duplicate username: " ++ d.username))
  | none =>
      let row : UserRow :=
        { username := d.username, firstName := d.firstName, lastName := d.lastName,
          email := d.email, isAdmin := d.isAdmin.getD false,
          passwordHash := hashPassword d.password }
      .ok (row.toPublic, users ++ [row])

/-- The `jsToSql` mapping of the User model's partial updates. -/
def userJsToSql (field : String) : Option String :=
  if field = "firstName" then some "first_name"
  else if field = "lastName" then some "last_name"
  else if field = "isAdmin" then some "is_admin"
  else none

/-- The store applying one `SET field = value` to a user row. -/
def UserRow.setField (r : UserRow) (field : String) (v : SqlValue) : UserRow :=
  if field = "firstName" then
    match v with | .str s => { r with firstName := s } | _ => r
  else if field = "lastName" then
    match v with | .str s => { r with lastName := s } | _ => r
  else if field = "email" then
    match v with | .str s => { r with email := s } | _ => r
  else if field = "password" then
    match v with | .str s => { r with passwordHash := hashPassword s } | _ => r
  else r

/-- Modelled from the spec: `User.update(username, data)`.  Partial
update via the SQL builder; fails with NotFound "No user found: ..."
when no row is affected, otherwise returns the updated user sans
password. -/
def User.update (users : List UserRow) (username : String)
    (data : List (String × SqlValue)) : Except JoblyError UserPublic :=
  match sqlForPartialUpdate data userJsToSql with
  | .error e => .error e
  | .ok _ =>
      match users.find? (fun u => u.username == username) with
      | none => .error (.notFound ("No user found: " ++ username))
      | some u => .ok ((data.foldl (fun acc fv => acc.setField fv.1 fv.2) u).toPublic)

/-- Modelled from the spec: `User.remove(username)`.  Delete returning
the username; NotFound "No user found: ..." when no row was affected. -/
def User.remove (users : List UserRow) (username : String) :
    Except JoblyError (List UserRow) :=
  match users.find? (fun u => u.username == username) with
  | none => .error (.notFound ("No user found: " ++ username))
  | some _ => .ok (users.filter (fun u => !(u.username == username)))

/-- A row of the `applications` table: composite key (username, jobId)
plus a status. -/
structure AppRow where
  username : String
  jobId : Nat
  status : String
deriving DecidableEq, Repr

/-- Modelled from the spec: `User.applyToJob(username, jobId,
status="applied")`.  Two separate existence pre-checks with distinct
NotFound messages naming the missing entity; BadRequest "Already
applied" when the (username, jobId) pair already exists; otherwise
inserts the application row.  Omitting the status argument defaults it
to "applied". -/
def User.applyToJob (users : List UserRow) (jobs : List JobRow) (apps : List AppRow)
    (username : String) (jobId : Nat) (status : String := "applied") :
    Except JoblyError (List AppRow) :=
  match jobs.find? (fun j => j.id == jobId) with
  | none => .error (.notFound ("No job: " ++ toString jobId))
  | some _ =>
      match users.find? (fun u => u.username == username) with
      | none => .error (.notFound ("No username: " ++ username))
      | some _ =>
          if apps.any (fun a => a.username == username && a.jobId == jobId) then
            .error (.badRequest ("Already applied to job: " ++ toString jobId))
          else
            .ok (apps ++ [{ username := username, jobId := jobId, status := status }])

/-- The `jsToSql` mapping of the Job model's partial updates. -/
def jobJsToSql (field : String) : Option String :=
  if field = "companyHandle" then some "company_handle" else none

/-- The store applying one `SET field = value` to a job row (the id and
the company handle are not updatable through `Job.update`). -/
def JobRow.setField (r : JobRow) (field : String) (v : SqlValue) : JobRow :=
  if field = "title" then
    match v with | .str s => { r with title := s } | _ => r
  else if field = "salary" then
    match v with
    | .int n => { r with salary := some n }
    | .null => { r with salary := none }
    | _ => r
  else if field = "equity" then
    match v with
    | .int n => { r with equity := some n }
    | .null => { r with equity := none }
    | _ => r
  else r

/-- Modelled from the spec: `Job.update(id, data)`.  Partial update via
the SQL builder; NotFound "No job: ..." when no row is affected. -/
def Job.update (jobs : List JobRow) (id : Nat) (data : List (String × SqlValue)) :
    Except JoblyError JobRow :=
  match sqlForPartialUpdate data jobJsToSql with
  | .error e => .error e
  | .ok _ =>
      match jobs.find? (fun j => j.id == id) with
      | none => .error (.notFound ("No job: " ++ toString id))
      | some j => .ok (data.foldl (fun acc fv => acc.setField fv.1 fv.2) j)

/-- Modelled from the spec: `Job.remove(id)`.  NotFound "No job: ..."
when no row was affected. -/
def Job.remove (jobs : List JobRow) (id : Nat) : Except JoblyError (List JobRow) :=
  match jobs.find? (fun j => j.id == id) with
  | none => .error (.notFound ("No job: " ++ toString id))
  | some _ => .ok (jobs.filter (fun j => !(j.id == id)))

/-- The `message` field of the error envelope `\x7berror: \x7bmessage\x7d\x7d` a
failed request carries: either a single string or an array of strings. -/
inductive ErrMessage where
  | one (s : String)
  | many (l : List String)
deriving DecidableEq, Repr

/-- The outcome of the underlying HTTP call made by `JoblyApi.request`:
either a 2xx response with its data, or a non-2xx response whose body
carries the error envelope. -/
inductive ApiOutcome (α : Type) where
  | success (data : α)
  | failure (message : ErrMessage)
deriving DecidableEq, Repr

/-- `Array.isArray(message) ? message : [message]`: a single string is
wrapped into a one-element array, an array is thrown as-is. -/
def normalizeErrMessage : ErrMessage → List String
  | .one s => [s]
  | .many l => l

/-- `JoblyApi.request`: returns the response data on success; on a
failed request throws the normalized list of message strings extracted
from the error envelope. -/
def JoblyApi.request {α : Type} (outcome : ApiOutcome α) : Except (List String) α :=
  match outcome with
  | .success d => .ok d
  | .failure m => .error (normalizeErrMessage m)

/-- The number of filter keys present on the filter object. -/
def providedFilterCount (f : CompanyFilters) : Nat :=
  (if f.minEmployees.isSome then 1 else 0) +
  (if f.maxEmployees.isSome then 1 else 0) +
  (if f.name.isSome then 1 else 0)

/-- The number of filter keys the code acts on: employee bounds count
whenever present, the name only when present and non-empty (truthy). -/
def effectiveFilterCount (f : CompanyFilters) : Nat :=
  (if f.minEmployees.isSome then 1 else 0) +
  (if f.maxEmployees.isSome then 1 else 0) +
  (match f.name with
   | some s => if s = "" then 0 else 1
   | none => 0)

/-- The amended claim's per-filter predicate, written from the spec's
words: a row matches when `num_employees` meets each present bound and
the name contains the (non-empty) name filter case-insensitively. -/
def specMatches (f : CompanyFilters) (r : CompanyRow) : Bool :=
  (match f.minEmployees with
   | some a =>
       match r.numEmployees with
       | some n => decide (a ≤ n)
       | none => false
   | none => true) &&
  (match f.maxEmployees with
   | some b =>
       match r.numEmployees with
       | some n => decide (n ≤ b)
       | none => false
   | none => true) &&
  (match f.name with
   | some s => if s = "" then true else containsCI r.name s
   | none => true)

/-- C1: for every non-empty partial-update input mapping, the SET
fragments generated for a company update have exactly one positional
placeholder per input field, in the insertion order of the input and
numbered from 1; the values are bound positionally (the bind list, not
the SQL text, carries them, in input order); and the bind list passed
to the store has the lookup handle as its last element. -/
theorem update_setClause_spec (data : List (String × SqlValue)) (handle : String)
    (hne : data ≠ []) :
    ∃ setCols values,
      sqlForPartialUpdate data companyJsToSql = .ok (setCols, values) ∧
      setCols.length = data.length ∧
      (∀ i, i < data.length →
        setCols.getD i "" =
          "\"" ++ ((companyJsToSql ((data.getD i ("", .null)).1)).getD
            ((data.getD i ("", .null)).1)) ++ "\"=$" ++ toString (i + 1)) ∧
      values = data.map (fun fv => fv.2) ∧
      Company.updateQuery handle data = .ok (setCols, values ++ [SqlValue.str handle]) ∧
      (values ++ [SqlValue.str handle]).getLast? = some (SqlValue.str handle) := by
  have hemp : data.isEmpty = false := by simp [List.isEmpty_iff, hne]
  refine ⟨data.enum.map
      (fun p => "\"" ++ ((companyJsToSql p.2.1).getD p.2.1) ++ "\"=$" ++ toString (p.1 + 1)),
    data.map (fun fv => fv.2), ?_, ?_, ?_, rfl, ?_, ?_⟩
  · simp [sqlForPartialUpdate, hemp]
  · simp
  · intro i hi
    have hi' : i < data.enum.length := by simpa using hi
    rw [List.getD_eq_getElem?_getD, List.getElem?_map, List.getElem?_eq_getElem hi',
      List.getElem_enum, List.getD_eq_getElem?_getD, List.getElem?_eq_getElem hi]
    rfl
  · simp [Company.updateQuery, sqlForPartialUpdate, hemp]
  · exact List.getLast?_concat ..

/-- Witness for C1 at a concrete two-field update. -/
theorem update_setClause_spec_witness :
    ∃ setCols values,
      sqlForPartialUpdate [("name", SqlValue.str "NewCo"), ("numEmployees", SqlValue.int 7)]
        companyJsToSql = .ok (setCols, values) ∧
      setCols.length = 2 ∧
      (∀ i, i < 2 →
        setCols.getD i "" =
          "\"" ++ ((companyJsToSql (([("name", SqlValue.str "NewCo"),
            ("numEmployees", SqlValue.int 7)].getD i ("", .null)).1)).getD
            (([("name", SqlValue.str "NewCo"),
            ("numEmployees", SqlValue.int 7)].getD i ("", .null)).1)) ++ "\"=$" ++
            toString (i + 1)) ∧
      values = [("name", SqlValue.str "NewCo"), ("numEmployees", SqlValue.int 7)].map
        (fun fv => fv.2) ∧
      Company.updateQuery "c1" [("name", SqlValue.str "NewCo"), ("numEmployees", SqlValue.int 7)]
        = .ok (setCols, values ++ [SqlValue.str "c1"]) ∧
      (values ++ [SqlValue.str "c1"]).getLast? = some (SqlValue.str "c1") :=
  update_setClause_spec [("name", SqlValue.str "NewCo"), ("numEmployees", SqlValue.int 7)]
    "c1" (by simp)

/-- C2: whenever both employee bounds are supplied and the minimum
exceeds the maximum, `Company.findAll` fails with the BadRequest error,
whatever the other filters and whatever the table contents — the result
does not depend on the store at all, so no query is issued. -/
theorem findAll_minGtMax_badRequest (companies : List CompanyRow) (f : CompanyFilters)
    (a b : Int) (hmin : f.minEmployees = some a) (hmax : f.maxEmployees = some b)
    (hab : b < a) :
    Company.findAll companies f =
      .error (.badRequest "Min employees cannot exceed max employees") := by
  have hinv : filtersInvalid f = true := by
    simp only [filtersInvalid, hmin, hmax]
    simpa using hab
  simp [Company.findAll, hinv]

/-- Witness for C2: min 3 > max 2, with a name filter also present and
a non-empty table. -/
theorem findAll_minGtMax_badRequest_witness :
    Company.findAll [⟨"c1", "C1", "d", some 5, none⟩]
      {minEmployees := some 3, maxEmployees := some 2, name := some "c"} =
      .error (.badRequest "Min employees cannot exceed max employees") :=
  findAll_minGtMax_badRequest _ _ 3 2 rfl rfl (by norm_num)

/-- C9: `JoblyApi.request` surfaces every failed request as an array of
message strings taken from the error envelope: a single string message
is wrapped into a one-element array, an array message is thrown as-is,
and a successful response returns its data. -/
theorem api_request_normalizes_errors (α : Type) (d : α) (s : String) (l : List String)
    (m : ErrMessage) :
    JoblyApi.request (ApiOutcome.success d) = .ok d ∧
    JoblyApi.request (ApiOutcome.failure (ErrMessage.one s) : ApiOutcome α) = .error [s] ∧
    JoblyApi.request (ApiOutcome.failure (ErrMessage.many l) : ApiOutcome α) = .error l ∧
    ∃ msgs : List String,
      JoblyApi.request (ApiOutcome.failure m : ApiOutcome α) = .error msgs :=
  ⟨rfl, rfl, rfl, normalizeErrMessage m, rfl⟩

/-- C4: updating or removing an entity whose key matches no row yields
a NotFound error — never a silent no-op — for companies, users, and
jobs alike (the update paths require a non-empty data object, which the
builder would otherwise reject first). -/
theorem update_remove_notFound (companies : List CompanyRow) (handle : String)
    (cdata : List (String × SqlValue))
    (users : List UserRow) (username : String) (udata : List (String × SqlValue))
    (jobs : List JobRow) (jid : Nat) (jdata : List (String × SqlValue))
    (hc : ∀ r ∈ companies, r.handle ≠ handle)
    (hu : ∀ u ∈ users, u.username ≠ username)
    (hj : ∀ j ∈ jobs, j.id ≠ jid)
    (hcd : cdata ≠ []) (hud : udata ≠ []) (hjd : jdata ≠ []) :
    Company.update companies handle cdata = .error (.notFound ("No company: " ++ handle)) ∧
    Company.remove companies handle = .error (.notFound ("No company: " ++ handle)) ∧
    User.update users username udata = .error (.notFound ("No user found: " ++ username)) ∧
    User.remove users username = .error (.notFound ("No user found: " ++ username)) ∧
    Job.update jobs jid jdata = .error (.notFound ("No job: " ++ toString jid)) ∧
    Job.remove jobs jid = .error (.notFound ("No job: " ++ toString jid)) := by
  have hfc : companies.find? (fun r => r.handle == handle) = none :=
    List.find?_eq_none.mpr (fun x hx => by simpa using hc x hx)
  have hfu : users.find? (fun u => u.username == username) = none :=
    List.find?_eq_none.mpr (fun x hx => by simpa using hu x hx)
  have hfj : jobs.find? (fun j => j.id == jid) = none :=
    List.find?_eq_none.mpr (fun x hx => by simpa using hj x hx)
  have hcd' : cdata.isEmpty = false := by simp [List.isEmpty_iff, hcd]
  have hud' : udata.isEmpty = false := by simp [List.isEmpty_iff, hud]
  have hjd' : jdata.isEmpty = false := by simp [List.isEmpty_iff, hjd]
  refine ⟨?_, ?_, ?_, ?_, ?_, ?_⟩ <;>
    simp [Company.update, Company.updateQuery, Company.remove, User.update, User.remove,
      Job.update, Job.remove, sqlForPartialUpdate, hfc, hfu, hfj, hcd', hud', hjd']

/-- Witness for C4 on empty tables and one-field updates. -/
theorem update_remove_notFound_witness :
    Company.update [] "c9" [("name", SqlValue.str "x")] =
      .error (.notFound ("No company: " ++ "c9")) ∧
    Company.remove [] "c9" = .error (.notFound ("No company: " ++ "c9")) ∧
    User.update [] "u9" [("firstName", SqlValue.str "x")] =
      .error (.notFound ("No user found: " ++ "u9")) ∧
    User.remove [] "u9" = .error (.notFound ("No user found: " ++ "u9")) ∧
    Job.update [] 9 [("title", SqlValue.str "x")] =
      .error (.notFound ("No job: " ++ toString 9)) ∧
    Job.remove [] 9 = .error (.notFound ("No job: " ++ toString 9)) :=
  update_remove_notFound [] "c9" [("name", SqlValue.str "x")] [] "u9"
    [("firstName", SqlValue.str "x")] [] 9 [("title", SqlValue.str "x")]
    (by simp) (by simp) (by simp) (by simp) (by simp) (by simp)

/-- C5: creating an entity whose unique key already exists fails with
the duplicate BadRequest error coming from the pre-insert lookup — the
model has no store uniqueness constraint at all, so the error can only
come from that lookup — while a fresh key inserts the row and returns
the stored shape; and registering the same username twice succeeds the
first time and fails with "Duplicate username" the second. -/
theorem create_register_duplicate (companies : List CompanyRow) (c : CompanyRow)
    (companies2 : List CompanyRow) (c2 : CompanyRow)
    (users : List UserRow) (d : RegisterData)
    (hdup : ∃ r ∈ companies, r.handle = c.handle)
    (hfresh : ∀ r ∈ companies2, r.handle ≠ c2.handle)
    (hu : ∀ u ∈ users, u.username ≠ d.username) :
    Company.create companies c = .error (.badRequest ("Duplicate company: " ++ c.handle)) ∧
    Company.create companies2 c2 = .ok (c2, companies2 ++ [c2]) ∧
    ∃ pub users2,
      User.register users d = .ok (pub, users2) ∧
      pub = ⟨d.username, d.firstName, d.lastName, d.email, d.isAdmin.getD false⟩ ∧
      User.register users2 d = .error (.badRequest ("Duplicate username: " ++ d.username)) := by
  refine ⟨?_, ?_, ?_⟩
  · obtain ⟨r, hr, hrh⟩ := hdup
    have hs : (companies.find? (fun x => x.handle == c.handle)).isSome :=
      List.find?_isSome.mpr ⟨r, hr, by simpa using hrh⟩
    obtain ⟨y, hy⟩ := Option.isSome_iff_exists.mp hs
    simp [Company.create, hy]
  · have hf : companies2.find? (fun x => x.handle == c2.handle) = none :=
      List.find?_eq_none.mpr (fun x hx => by simpa using hfresh x hx)
    simp [Company.create, hf]
  · have hf : users.find? (fun u => u.username == d.username) = none :=
      List.find?_eq_none.mpr (fun x hx => by simpa using hu x hx)
    refine ⟨⟨d.username, d.firstName, d.lastName, d.email, d.isAdmin.getD false⟩,
      users ++ [⟨d.username, d.firstName, d.lastName, d.email, d.isAdmin.getD false,
        hashPassword d.password⟩], ?_, rfl, ?_⟩
    · simp [User.register, hf, UserRow.toPublic]
    · simp [User.register, List.find?_append, hf, List.find?]

/-- Witness for C5 at concrete tables. -/
theorem create_register_duplicate_witness :
    Company.create [⟨"c1", "C1", "d", none, none⟩] ⟨"c1", "Other", "x", none, none⟩ =
      .error (.badRequest ("Duplicate company: " ++ "c1")) ∧
    Company.create [] ⟨"c2", "C2", "d", none, none⟩ =
      .ok (⟨"c2", "C2", "d", none, none⟩, [] ++ [⟨"c2", "C2", "d", none, none⟩]) ∧
    ∃ pub users2,
      User.register [] ⟨"new", "Test", "Tester", "test@test.com", "password", none⟩ =
        .ok (pub, users2) ∧
      pub = ⟨"new", "Test", "Tester", "test@test.com", false⟩ ∧
      User.register users2 ⟨"new", "Test", "Tester", "test@test.com", "password", none⟩ =
        .error (.badRequest ("Duplicate username: " ++ "new")) :=
  create_register_duplicate [⟨"c1", "C1", "d", none, none⟩] ⟨"c1", "Other", "x", none, none⟩
    [] ⟨"c2", "C2", "d", none, none⟩ [] ⟨"new", "Test", "Tester", "test@test.com", "password", none⟩
    ⟨⟨"c1", "C1", "d", none, none⟩, by simp⟩ (by simp) (by simp)

/-- C7: `User.authenticate` throws Unauthorized with the identical
generic "Invalid username/password" message both when the username does
not exist and when the hash check fails; on success it returns the
public user shape, which has no password field — the returned value
does not depend on the stored hash at all. -/
theorem authenticate_generic_unauthorized (users : List UserRow) (username password : String) :
    ((∀ u ∈ users, u.username ≠ username) →
      User.authenticate users username password =
        .error (.unauthorized "Invalid username/password")) ∧
    (∀ u, users.find? (fun x => x.username == username) = some u →
      (checkPassword password u.passwordHash = false →
        User.authenticate users username password =
          .error (.unauthorized "Invalid username/password")) ∧
      (checkPassword password u.passwordHash = true →
        User.authenticate users username password = .ok u.toPublic)) ∧
    (∀ (v : UserRow) (h₁ h₂ : String),
      UserRow.toPublic { v with passwordHash := h₁ } =
        UserRow.toPublic { v with passwordHash := h₂ }) := by
  refine ⟨?_, ?_, fun v h₁ h₂ => rfl⟩
  · intro h
    have hf : users.find? (fun x => x.username == username) = none :=
      List.find?_eq_none.mpr (fun x hx => by simpa using h x hx)
    simp [User.authenticate, hf]
  · intro u hu
    exact ⟨fun hcp => by simp [User.authenticate, hu, hcp],
           fun hcp => by simp [User.authenticate, hu, hcp]⟩

/-- Witness for C7: missing user and wrong password produce the same
error; the right password returns the password-free shape. -/
theorem authenticate_generic_unauthorized_witness :
    User.authenticate [⟨"u1", "U1F", "U1L", "u1@email.com", false, hashPassword "password1"⟩]
      "nope" "password" = .error (.unauthorized "Invalid username/password") ∧
    User.authenticate [⟨"u1", "U1F", "U1L", "u1@email.com", false, hashPassword "password1"⟩]
      "u1" "wrong" = .error (.unauthorized "Invalid username/password") ∧
    User.authenticate [⟨"u1", "U1F", "U1L", "u1@email.com", false, hashPassword "password1"⟩]
      "u1" "password1" =
      .ok (UserRow.toPublic ⟨"u1", "U1F", "U1L", "u1@email.com", false,
        hashPassword "password1"⟩) := by
  refine ⟨?_, ?_, ?_⟩
  · exact (authenticate_generic_unauthorized
      [⟨"u1", "U1F", "U1L", "u1@email.com", false, hashPassword "password1"⟩]
      "nope" "password").1 (by simp)
  · exact ((authenticate_generic_unauthorized
      [⟨"u1", "U1F", "U1L", "u1@email.com", false, hashPassword "password1"⟩]
      "u1" "wrong").2.1 _ rfl).1 (by decide)
  · exact ((authenticate_generic_unauthorized
      [⟨"u1", "U1F", "U1L", "u1@email.com", false, hashPassword "password1"⟩]
      "u1" "password1").2.1 _ rfl).2 (by decide)

/-- C8: `User.applyToJob` checks the job and the username separately,
with distinct NotFound messages naming the missing entity; a duplicate
(username, jobId) pair fails with the "Already applied" BadRequest; and
otherwise the application row is inserted, with the status defaulting
to "applied" when not supplied. -/
theorem applyToJob_spec (users : List UserRow) (jobs : List JobRow) (apps : List AppRow)
    (username : String) (jobId : Nat) (status : String) :
    ((∀ j ∈ jobs, j.id ≠ jobId) →
      User.applyToJob users jobs apps username jobId status =
        .error (.notFound ("No job: " ++ toString jobId))) ∧
    ((∃ j ∈ jobs, j.id = jobId) → (∀ u ∈ users, u.username ≠ username) →
      User.applyToJob users jobs apps username jobId status =
        .error (.notFound ("No username: " ++ username))) ∧
    ((∃ j ∈ jobs, j.id = jobId) → (∃ u ∈ users, u.username = username) →
      (∃ a ∈ apps, a.username = username ∧ a.jobId = jobId) →
      User.applyToJob users jobs apps username jobId status =
        .error (.badRequest ("Already applied to job: " ++ toString jobId))) ∧
    ((∃ j ∈ jobs, j.id = jobId) → (∃ u ∈ users, u.username = username) →
      (∀ a ∈ apps, ¬(a.username = username ∧ a.jobId = jobId)) →
      User.applyToJob users jobs apps username jobId status =
        .ok (apps ++ [⟨username, jobId, status⟩]) ∧
      User.applyToJob users jobs apps username jobId =
        .ok (apps ++ [⟨username, jobId, "applied"⟩])) := by
  refine ⟨?_, ?_, ?_, ?_⟩
  · intro hj
    have hfj : jobs.find? (fun j => j.id == jobId) = none :=
      List.find?_eq_none.mpr (fun x hx => by simpa using hj x hx)
    simp [User.applyToJob, hfj]
  · intro hj hu
    have hys : (jobs.find? (fun j => j.id == jobId)).isSome := by
      obtain ⟨j, hjm, hje⟩ := hj
      exact List.find?_isSome.mpr ⟨j, hjm, by simpa using hje⟩
    obtain ⟨y, hy⟩ := Option.isSome_iff_exists.mp hys
    have hfu : users.find? (fun u => u.username == username) = none :=
      List.find?_eq_none.mpr (fun x hx => by simpa using hu x hx)
    simp [User.applyToJob, hy, hfu]
  · intro hj hu ha
    have hys : (jobs.find? (fun j => j.id == jobId)).isSome := by
      obtain ⟨j, hjm, hje⟩ := hj
      exact List.find?_isSome.mpr ⟨j, hjm, by simpa using hje⟩
    obtain ⟨y, hy⟩ := Option.isSome_iff_exists.mp hys
    have hzs : (users.find? (fun u => u.username == username)).isSome := by
      obtain ⟨u, hum, hue⟩ := hu
      exact List.find?_isSome.mpr ⟨u, hum, by simpa using hue⟩
    obtain ⟨z, hz⟩ := Option.isSome_iff_exists.mp hzs
    have hany : apps.any (fun a => a.username == username && a.jobId == jobId) = true :=
      List.any_eq_true.mpr
        (by obtain ⟨a, ham, hae1, hae2⟩ := ha; exact ⟨a, ham, by simp [hae1, hae2]⟩)
    simp [User.applyToJob, hy, hz, hany]
  · intro hj hu ha
    have hys : (jobs.find? (fun j => j.id == jobId)).isSome := by
      obtain ⟨j, hjm, hje⟩ := hj
      exact List.find?_isSome.mpr ⟨j, hjm, by simpa using hje⟩
    obtain ⟨y, hy⟩ := Option.isSome_iff_exists.mp hys
    have hzs : (users.find? (fun u => u.username == username)).isSome := by
      obtain ⟨u, hum, hue⟩ := hu
      exact List.find?_isSome.mpr ⟨u, hum, by simpa using hue⟩
    obtain ⟨z, hz⟩ := Option.isSome_iff_exists.mp hzs
    have hany : apps.any (fun a => a.username == username && a.jobId == jobId) = false := by
      rw [← Bool.not_eq_true, List.any_eq_true]
      rintro ⟨a, ham, hae⟩
      simp only [Bool.and_eq_true, beq_iff_eq] at hae
      exact ha a ham hae
    exact ⟨by simp [User.applyToJob, hy, hz, hany], by simp [User.applyToJob, hy, hz, hany]⟩

/-- Witness for C8 exercising all four outcomes. -/
theorem applyToJob_spec_witness :
    User.applyToJob [⟨"u1", "F", "L", "e", false, "h"⟩] [⟨1, "Job1", none, none, "c1"⟩]
      [] "u1" 0 "applied" = .error (.notFound ("No job: " ++ toString 0)) ∧
    User.applyToJob [⟨"u1", "F", "L", "e", false, "h"⟩] [⟨1, "Job1", none, none, "c1"⟩]
      [] "nope" 1 "applied" = .error (.notFound ("No username: " ++ "nope")) ∧
    User.applyToJob [⟨"u1", "F", "L", "e", false, "h"⟩] [⟨1, "Job1", none, none, "c1"⟩]
      [⟨"u1", 1, "applied"⟩] "u1" 1 "applied" =
      .error (.badRequest ("Already applied to job: " ++ toString 1)) ∧
    User.applyToJob [⟨"u1", "F", "L", "e", false, "h"⟩] [⟨1, "Job1", none, none, "c1"⟩]
      [] "u1" 1 = .ok ([] ++ [⟨"u1", 1, "applied"⟩]) := by
  refine ⟨?_, ?_, ?_, ?_⟩
  · exact (applyToJob_spec [⟨"u1", "F", "L", "e", false, "h"⟩] [⟨1, "Job1", none, none, "c1"⟩]
      [] "u1" 0 "applied").1 (by simp)
  · exact (applyToJob_spec [⟨"u1", "F", "L", "e", false, "h"⟩] [⟨1, "Job1", none, none, "c1"⟩]
      [] "nope" 1 "applied").2.1 ⟨⟨1, "Job1", none, none, "c1"⟩, by simp⟩ (by simp)
  · exact (applyToJob_spec [⟨"u1", "F", "L", "e", false, "h"⟩] [⟨1, "Job1", none, none, "c1"⟩]
      [⟨"u1", 1, "applied"⟩] "u1" 1 "applied").2.2.1 ⟨⟨1, "Job1", none, none, "c1"⟩, by simp⟩
      ⟨⟨"u1", "F", "L", "e", false, "h"⟩, by simp⟩ ⟨⟨"u1", 1, "applied"⟩, by simp⟩
  · exact ((applyToJob_spec [⟨"u1", "F", "L", "e", false, "h"⟩] [⟨1, "Job1", none, none, "c1"⟩]
      [] "u1" 1 "applied").2.2.2 ⟨⟨1, "Job1", none, none, "c1"⟩, by simp⟩
      ⟨⟨"u1", "F", "L", "e", false, "h"⟩, by simp⟩ (by simp)).2

/-- The sorted nested-jobs list is ascending in id. -/
theorem sortJobsById_pairwise (js : List JobNested) :
    (sortJobsById js).Pairwise (fun a b => a.id ≤ b.id) := by
  have h := @List.sorted_mergeSort JobNested (fun a b : JobNested => decide (a.id ≤ b.id))
    (fun a b c hab hbc => by
      simp only [decide_eq_true_eq] at *
      omega)
    (fun a b => by
      rcases Nat.le_total a.id b.id with h | h <;> simp [h]) js
  exact h.imp (fun hab => of_decide_eq_true hab)

/-- Sorting the nested jobs only reorders them. -/
theorem sortJobsById_perm (js : List JobNested) : (sortJobsById js).Perm js :=
  List.mergeSort_perm js _

/-- The name-sorted company rows are ascending in name. -/
theorem sortByName_pairwise (rows : List CompanyRow) :
    (sortByName rows).Pairwise (fun a b => a.name ≤ b.name) := by
  have h := @List.sorted_mergeSort CompanyRow (fun a b : CompanyRow => decide (a.name ≤ b.name))
    (fun a b c hab hbc => by
      simp only [decide_eq_true_eq] at *
      exact le_trans hab hbc)
    (fun a b => by
      rcases le_total a.name b.name with h | h <;> simp [h]) rows
  exact h.imp (fun hab => of_decide_eq_true hab)

/-- Sorting by name only reorders the rows. -/
theorem sortByName_perm (rows : List CompanyRow) : (sortByName rows).Perm rows :=
  List.mergeSort_perm rows _

/-- C6: `Company.get` fails with NotFound when the handle matches no
company; otherwise it returns that company's row with its jobs attached
as a nested list that is ascending in job id and consists exactly of
the jobs whose `company_handle` is the requested handle. -/
theorem company_get_spec (companies : List CompanyRow) (jobs : List JobRow) (handle : String) :
    ((∀ r ∈ companies, r.handle ≠ handle) →
      Company.get companies jobs handle = .error (.notFound ("No company: " ++ handle))) ∧
    (∀ c, companies.find? (fun r => r.handle == handle) = some c →
      ∃ view, Company.get companies jobs handle = .ok view ∧
        view.handle = c.handle ∧ view.name = c.name ∧ view.description = c.description ∧
        view.numEmployees = c.numEmployees ∧ view.logoUrl = c.logoUrl ∧
        view.jobs.Pairwise (fun a b => a.id ≤ b.id) ∧
        view.jobs.Perm ((jobs.filter (fun j => j.companyHandle == handle)).map
          JobRow.toNested)) := by
  constructor
  · intro h
    have hf : companies.find? (fun r => r.handle == handle) = none :=
      List.find?_eq_none.mpr (fun x hx => by simpa using h x hx)
    simp [Company.get, hf]
  · intro c hc
    refine ⟨{ handle := c.handle, name := c.name, description := c.description,
              numEmployees := c.numEmployees, logoUrl := c.logoUrl,
              jobs := sortJobsById
                ((jobs.filter (fun j => j.companyHandle == handle)).map
                  JobRow.toNested) }, ?_, rfl, rfl, rfl, rfl, rfl, ?_, ?_⟩
    · simp [Company.get, hc]
    · exact sortJobsById_pairwise _
    · exact sortJobsById_perm _

/-- Witness for C6: a missing handle, and a company whose two jobs are
stored out of order but come back ascending in id. -/
theorem company_get_spec_witness :
    Company.get ([] : List CompanyRow) [] "nope" =
      .error (.notFound ("No company: " ++ "nope")) ∧
    ∃ view, Company.get [⟨"c1", "C1", "d", some 3, none⟩]
        [⟨2, "Job2", none, none, "c1"⟩, ⟨1, "Job1", none, none, "c1"⟩] "c1" = .ok view ∧
      view.jobs.Pairwise (fun a b => a.id ≤ b.id) ∧
      view.jobs.Perm ([⟨2, "Job2", none, none, "c1"⟩,
        ⟨1, "Job1", none, none, "c1"⟩].filter
          (fun j => j.companyHandle == "c1") |>.map JobRow.toNested) := by
  constructor
  · exact (company_get_spec [] [] "nope").1 (by simp)
  · obtain ⟨view, hv, _, _, _, _, _, hpw, hperm⟩ :=
      (company_get_spec [⟨"c1", "C1", "d", some 3, none⟩]
        [⟨2, "Job2", none, none, "c1"⟩, ⟨1, "Job1", none, none, "c1"⟩] "c1").2
        ⟨"c1", "C1", "d", some 3, none⟩ rfl
    exact ⟨view, hv, hpw, hperm⟩

/-- The conjunction of the clauses `Company.findAll` builds agrees with
the per-filter predicate on every row: present employee bounds are
enforced, and the name filter is enforced exactly when non-empty. -/
theorem satisfiesAll_clausesOf (f : CompanyFilters) (r : CompanyRow) :
    satisfiesAll (clausesOf f) r = specMatches f r := by
  obtain ⟨mn, mx, nm⟩ := f
  rcases nm with _ | s
  · cases mn <;> cases mx <;>
      simp [clausesOf, buildWhere, addMinClause, addMaxClause, addNameClause,
        satisfiesAll, specMatches, WhereClause.eval, Bool.and_assoc]
  · rcases eq_or_ne s "" with hs | hs <;>
      cases mn <;> cases mx <;>
        simp [clausesOf, buildWhere, addMinClause, addMaxClause, addNameClause,
          satisfiesAll, specMatches, WhereClause.eval, Bool.and_assoc, hs]

/-- The clause list has exactly one entry per effective filter. -/
theorem clausesOf_length (f : CompanyFilters) :
    (clausesOf f).length = effectiveFilterCount f := by
  obtain ⟨mn, mx, nm⟩ := f
  rcases nm with _ | s
  · cases mn <;> cases mx <;> rfl
  · rcases eq_or_ne s "" with hs | hs <;>
      cases mn <;> cases mx <;>
        simp [clausesOf, buildWhere, addMinClause, addMaxClause, addNameClause,
          effectiveFilterCount, hs]

/-- C3 counterexample: a provided-but-empty name is a provided filter
for which no clause at all is generated, so the clause list does not
have exactly one clause per provided filter. -/
theorem findAll_clausePerProvided_counterexample :
    (clausesOf { name := some "" }).length ≠ providedFilterCount { name := some "" } := by
  decide

/-- C3 (amended): for every valid filter object, `Company.findAll`
returns the rows satisfying the conjunction of the effective filters —
`num_employees ≥ minEmployees`, `num_employees ≤ maxEmployees`, and a
case-insensitive substring match on a non-empty name (an empty provided
name adds no clause) — ordered by name ascending, with exactly one
clause per effective filter, and all rows when no filter is given. -/
theorem findAll_filter_spec (companies : List CompanyRow) (f : CompanyFilters)
    (hv : filtersInvalid f = false) :
    ∃ rows, Company.findAll companies f = .ok rows ∧
      rows.Perm (companies.filter (specMatches f)) ∧
      rows.Pairwise (fun a b => a.name ≤ b.name) ∧
      (clausesOf f).length = effectiveFilterCount f ∧
      (f.minEmployees = none → f.maxEmployees = none → f.name = none →
        rows.Perm companies) := by
  have hfeq : companies.filter (satisfiesAll (clausesOf f)) =
      companies.filter (specMatches f) :=
    List.filter_congr (fun r _ => satisfiesAll_clausesOf f r)
  refine ⟨sortByName (companies.filter (satisfiesAll (clausesOf f))), ?_, ?_,
    sortByName_pairwise _, clausesOf_length f, ?_⟩
  · simp [Company.findAll, hv]
  · rw [hfeq]
    exact sortByName_perm _
  · intro h1 h2 h3
    have hcl : clausesOf f = [] := by
      obtain ⟨mn, mx, nm⟩ := f
      simp only at h1 h2 h3
      subst h1 h2 h3
      rfl
    have hall : companies.filter (satisfiesAll (clausesOf f)) = companies := by
      rw [hcl]
      simp [satisfiesAll]
    rw [hall]
    exact sortByName_perm _

/-- Witness for the amended C3 on a two-row table with all three
filters effective. -/
theorem findAll_filter_spec_witness :
    ∃ rows, Company.findAll [⟨"a", "Apple", "d", some 5, none⟩,
        ⟨"z", "Zebra", "d", none, none⟩] ⟨some 1, some 10, some "app"⟩ = .ok rows ∧
      rows.Perm ([⟨"a", "Apple", "d", some 5, none⟩,
        ⟨"z", "Zebra", "d", none, none⟩].filter
          (specMatches ⟨some 1, some 10, some "app"⟩)) ∧
      rows.Pairwise (fun a b => a.name ≤ b.name) ∧
      (clausesOf ⟨some 1, some 10, some "app"⟩).length =
        effectiveFilterCount ⟨some 1, some 10, some "app"⟩ ∧
      ((some 1 : Option Int) = none → (some 10 : Option Int) = none →
        (some "app" : Option String) = none →
        rows.Perm [⟨"a", "Apple", "d", some 5, none⟩, ⟨"z", "Zebra", "d", none, none⟩]) :=
  findAll_filter_spec [⟨"a", "Apple", "d", some 5, none⟩,
    ⟨"z", "Zebra", "d", none, none⟩] ⟨some 1, some 10, some "app"⟩ rfl

/-- C10: a provided empty (falsy) name behaves exactly like omitting
the name filter — the built query and the result are identical — while
an employee bound of 0 is honored as a genuine bound: its clause is
pushed, and every returned row has a non-NULL `num_employees` meeting
the bound. -/
theorem findAll_truthiness_gating (companies : List CompanyRow) (mn mx : Option Int)
    (nm : Option String) :
    Company.findAll companies ⟨mn, mx, some ""⟩ = Company.findAll companies ⟨mn, mx, none⟩ ∧
    buildWhere ⟨mn, mx, some ""⟩ = buildWhere ⟨mn, mx, none⟩ ∧
    (filtersInvalid ⟨some 0, mx, nm⟩ = false →
      WhereClause.geNumEmployees 1 0 ∈ clausesOf ⟨some 0, mx, nm⟩ ∧
      ∃ rows, Company.findAll companies ⟨some 0, mx, nm⟩ = .ok rows ∧
        ∀ r ∈ rows, ∃ n, r.numEmployees = some n ∧ 0 ≤ n) ∧
    (filtersInvalid ⟨mn, some 0, nm⟩ = false →
      (∃ i, WhereClause.leNumEmployees i 0 ∈ clausesOf ⟨mn, some 0, nm⟩) ∧
      ∃ rows, Company.findAll companies ⟨mn, some 0, nm⟩ = .ok rows ∧
        ∀ r ∈ rows, ∃ n, r.numEmployees = some n ∧ n ≤ 0) := by
  have hbw : buildWhere ⟨mn, mx, some ""⟩ = buildWhere ⟨mn, mx, none⟩ := by
    simp [buildWhere, addNameClause]
  refine ⟨?_, hbw, ?_, ?_⟩
  · simp [Company.findAll, clausesOf, hbw, filtersInvalid]
  · intro hinv
    have hmem : WhereClause.geNumEmployees 1 0 ∈ clausesOf ⟨some 0, mx, nm⟩ := by
      rcases nm with _ | s
      · cases mx <;>
          simp [clausesOf, buildWhere, addMinClause, addMaxClause, addNameClause]
      · rcases eq_or_ne s "" with hs | hs <;>
          cases mx <;>
            simp [clausesOf, buildWhere, addMinClause, addMaxClause, addNameClause, hs]
    refine ⟨hmem, sortByName (companies.filter (satisfiesAll
      (clausesOf ⟨some 0, mx, nm⟩))), by simp [Company.findAll, hinv], ?_⟩
    intro r hr
    rw [sortByName] at hr
    have hr' := List.mem_mergeSort.mp hr
    have hsat := (List.mem_filter.mp hr').2
    rw [satisfiesAll] at hsat
    have hev := List.all_eq_true.mp hsat (WhereClause.geNumEmployees 1 0) hmem
    cases hn : r.numEmployees with
    | none => simp [WhereClause.eval, hn] at hev
    | some n =>
        refine ⟨n, rfl, ?_⟩
        simpa [WhereClause.eval, hn] using hev
  · intro hinv
    have hmem : ∃ i, WhereClause.leNumEmployees i 0 ∈ clausesOf ⟨mn, some 0, nm⟩ := by
      rcases nm with _ | s
      · cases mn
        · exact ⟨1, by simp [clausesOf, buildWhere, addMinClause, addMaxClause,
            addNameClause]⟩
        · exact ⟨2, by simp [clausesOf, buildWhere, addMinClause, addMaxClause,
            addNameClause]⟩
      · rcases eq_or_ne s "" with hs | hs
        · cases mn
          · exact ⟨1, by simp [clausesOf, buildWhere, addMinClause, addMaxClause,
              addNameClause, hs]⟩
          · exact ⟨2, by simp [clausesOf, buildWhere, addMinClause, addMaxClause,
              addNameClause, hs]⟩
        · cases mn
          · exact ⟨1, by simp [clausesOf, buildWhere, addMinClause, addMaxClause,
              addNameClause, hs]⟩
          · exact ⟨2, by simp [clausesOf, buildWhere, addMinClause, addMaxClause,
              addNameClause, hs]⟩
    obtain ⟨i, hi⟩ := hmem
    refine ⟨⟨i, hi⟩, sortByName (companies.filter (satisfiesAll
      (clausesOf ⟨mn, some 0, nm⟩))), by simp [Company.findAll, hinv], ?_⟩
    intro r hr
    rw [sortByName] at hr
    have hr' := List.mem_mergeSort.mp hr
    have hsat := (List.mem_filter.mp hr').2
    rw [satisfiesAll] at hsat
    have hev := List.all_eq_true.mp hsat (WhereClause.leNumEmployees i 0) hi
    cases hn : r.numEmployees with
    | none => simp [WhereClause.eval, hn] at hev
    | some n =>
        refine ⟨n, rfl, ?_⟩
        simpa [WhereClause.eval, hn] using hev

/-- Witness for C10 on a concrete table with a NULL-employee row. -/
theorem findAll_truthiness_gating_witness :
    Company.findAll [⟨"a", "A", "d", some 2, none⟩, ⟨"b", "B", "d", none, none⟩]
        ⟨some 0, none, some ""⟩ =
      Company.findAll [⟨"a", "A", "d", some 2, none⟩, ⟨"b", "B", "d", none, none⟩]
        ⟨some 0, none, none⟩ ∧
    WhereClause.geNumEmployees 1 0 ∈ clausesOf ⟨some 0, none, none⟩ ∧
    ∃ rows, Company.findAll [⟨"a", "A", "d", some 2, none⟩, ⟨"b", "B", "d", none, none⟩]
        ⟨some 0, none, none⟩ = .ok rows ∧
      ∀ r ∈ rows, ∃ n, r.numEmployees = some n ∧ 0 ≤ n := by
  obtain ⟨h1, _, h3, _⟩ := findAll_truthiness_gating
    [⟨"a", "A", "d", some 2, none⟩, ⟨"b", "B", "d", none, none⟩] (some 0) none none
  obtain ⟨hmem, rows, hrows, hbound⟩ := h3 rfl
  exact ⟨h1, hmem, rows, hrows, hbound⟩
